import Mathlib

/-!
Shallow embedding of `src/index.js` of local-mongodb-collection-mirror.

The mirror keeps an in-memory `Map` from a serialized document id to the
document, populated by an initial `collection.find({}).toArray()` snapshot and
kept current by a MongoDB change stream.  We model:

* documents as an id value plus a field list (`Doc`);
* the JS `Map` cache as an association list with `Map` semantics
  (`mapGet` / `mapSet` / `mapDelete`, set keeps the original position of an
  existing key and appends otherwise);
* the mirror's mutable fields `cache`, `changeStream` (present or not),
  `invalid`, `closed`, `lastOpId` as a record `MirrorState`;
* event emission as a list of `Notification` values produced by each step,
  where an argument is either the mirror instance (`EmitArg.mirrorRef`),
  the JS `undefined` value (`EmitArg.undef`), a document key, or a raw
  change event.
-/

namespace LocalMongoDbCollectionMirror

/-- JSON-like values used for document ids and field values.  Composite
(object/array) values are elided: no claim depends on them, and every id in the
repository's tests is a string. -/
inductive JVal where
  | jnull : JVal
  | jbool : Bool → JVal
  | jnum : Int → JVal
  | jstr : String → JVal
deriving DecidableEq, Repr

/-- Models `JSON.stringify` on the id values above; string escaping is elided
(no claim depends on the exact serialized text, only on `get` and `cacheKey`
using the same serialization). -/
def jsonStringify : JVal → String
  | JVal.jnull => "null"
  | JVal.jbool b => if b then "true" else "false"
  | JVal.jnum n => toString n
  | JVal.jstr s => "\"" ++ s ++ "\""

/-- A MongoDB document: its `_id` analog plus the remaining fields. -/
structure Doc where
  docId : JVal
  fields : List (String × JVal)
deriving DecidableEq, Repr

/-- `cacheKey(doc)` of src/index.js lines 177-179: `JSON.stringify(doc._id)`. -/
def cacheKey (doc : Doc) : String := jsonStringify doc.docId

/-- The in-memory cache, a JS `Map` from serialized id to document. -/
abbrev Cache := List (String × Doc)

/-- `Map.prototype.get`. -/
def mapGet : Cache → String → Option Doc
  | [], _ => none
  | (k, v) :: rest, key => if k = key then some v else mapGet rest key

/-- `Map.prototype.has`. -/
def mapHas (c : Cache) (key : String) : Bool := (mapGet c key).isSome

/-- `Map.prototype.set`: overwrites in place when the key is present, appends
otherwise. -/
def mapSet : Cache → String → Doc → Cache
  | [], key, v => [(key, v)]
  | (k, w) :: rest, key, v =>
      if k = key then (key, v) :: rest else (k, w) :: mapSet rest key v

/-- `Map.prototype.delete` (keys are unique in a JS `Map`, so removing every
binding of the key is equivalent). -/
def mapDelete : Cache → String → Cache
  | [], _ => []
  | (k, w) :: rest, key =>
      if k = key then mapDelete rest key else (k, w) :: mapDelete rest key

/-- A raw change-stream event as consumed by `changeHandler`: the
`operationType` string, the `documentKey` (a partial document holding the id),
the optional `fullDocument` (null/absent collapses to `none`), and the resume
token `_id` recorded into `lastOpId`. -/
structure ChangeEvent where
  operationType : String
  documentKey : Doc
  fullDocument : Option Doc
  resumeId : Nat
deriving DecidableEq, Repr

/-- An argument of an emitted notification.  `mirrorRef` is the single mirror
instance; `undef` is JS `undefined`. -/
inductive EmitArg where
  | mirrorRef : EmitArg
  | undef : EmitArg
  | keyArg : String → EmitArg
  | eventArg : ChangeEvent → EmitArg
deriving DecidableEq, Repr

/-- One emitted notification: event name and listener arguments. -/
structure Notification where
  name : String
  args : List EmitArg
deriving DecidableEq, Repr

/-- The mirror's mutable fields.  `changeStream` is `true` once
`this.changeStream` has been assigned (end of the constructor's `.then`
callback); `invalid` is `this.invalid`, `closed` is `this.closed` (JS
`undefined` before first assignment, i.e. falsy, modelled as `false`). -/
structure MirrorState where
  cache : Cache
  changeStream : Bool
  invalid : Bool
  closed : Bool
  lastOpId : Option Nat
deriving DecidableEq, Repr

/-- The state right after `new LocalMongoDbCollectionMirror(collection)` runs
its synchronous prefix (lines 17-22): empty cache, no stream, no flags. -/
def initialState : MirrorState :=
  { cache := [], changeStream := false, invalid := false, closed := false,
    lastOpId := none }

/-- `isValid()` (line 112-114): `!this.invalid`. -/
def isValid (m : MirrorState) : Bool := !m.invalid

/-- `isReady()` (lines 108-110): `!!this.changeStream && !this.invalid &&
!this.closed`. -/
def isReady (m : MirrorState) : Bool := m.changeStream && !m.invalid && !m.closed

/-- `isClosed()` (lines 116-118): `this.closed`. -/
def isClosed (m : MirrorState) : Bool := m.closed

/-- `doEmit` (lines 129-133): emits only while `mirror.isValid()`. -/
def doEmit (m : MirrorState) (name : String) (args : List EmitArg) :
    List Notification :=
  if isValid m then [{ name := name, args := args }] else []

/-- `setCachedValue(keyDoc, doc, mirror)` (lines 164-175): set the cache entry
when `doc` is neither null nor undefined, delete it otherwise, then emit
`changed`.  The first listener argument is the function's own `this`, which in
a strict-mode plain function call is `undefined` — hence `EmitArg.undef`, not
the mirror. -/
def setCachedValue (keyDoc : Doc) (doc : Option Doc) (m : MirrorState) :
    MirrorState × List Notification :=
  let docKey := cacheKey keyDoc
  let m2 :=
    match doc with
    | some d => { m with cache := mapSet m.cache docKey d }
    | none => { m with cache := mapDelete m.cache docKey }
  (m2, doEmit m2 "changed" [EmitArg.undef, EmitArg.keyArg docKey])

/-- `changeHandler(change)` (lines 40-64): record the resume token, then
switch on `operationType`; `delete`/`insert`/`replace`/`update` all fall
through to one `setCachedValue` call, `invalidate` emits `invalidated` before
setting `this.invalid = true`, anything else is ignored. -/
def changeHandler (m : MirrorState) (change : ChangeEvent) :
    MirrorState × List Notification :=
  let m1 := { m with lastOpId := some change.resumeId }
  if change.operationType = "delete" ∨ change.operationType = "insert" ∨
      change.operationType = "replace" ∨ change.operationType = "update" then
    setCachedValue change.documentKey change.fullDocument m1
  else if change.operationType = "invalidate" then
    let notes := doEmit m1 "invalidated" [EmitArg.mirrorRef, EmitArg.eventArg change]
    ({ m1 with invalid := true }, notes)
  else
    (m1, [])

/-- Feed delivery: change-stream events are handled strictly one at a time in
delivery order; the notifications of each step are concatenated. -/
def processEvents : MirrorState → List ChangeEvent → MirrorState × List Notification
  | m, [] => (m, [])
  | m, e :: rest =>
      let step := changeHandler m e
      let tail := processEvents step.1 rest
      (tail.1, step.2 ++ tail.2)

/-- The typed failures thrown by query paths: `CollectionNoLongerValid`,
`MirrorClosed`, `NoSuchKey` (src/index.js lines 8-12). -/
inductive QueryError where
  | collectionNoLongerValid : QueryError
  | mirrorClosed : QueryError
  | noSuchKey : String → QueryError
deriving DecidableEq, Repr

/-- `assertState(mirror)` (lines 135-143): `invalid` is checked before
`closed`. -/
def assertState (m : MirrorState) : Except QueryError Unit :=
  if m.invalid then Except.error QueryError.collectionNoLongerValid
  else if m.closed then Except.error QueryError.mirrorClosed
  else Except.ok ()

/-- `find(query)` (lines 83-96): `assertState`, then a synchronous scan of
`this.cache.values()` in insertion order filtered by the sift predicate (the
predicate engine is the black-box collaborator `matches`, passed here as a
function). -/
def find (m : MirrorState) (predicate : Doc → Bool) :
    Except QueryError (List Doc) :=
  match assertState m with
  | Except.error e => Except.error e
  | Except.ok _ => Except.ok ((m.cache.map Prod.snd).filter predicate)

/-- `get(key)` (lines 98-106): stringify the key, throw `NoSuchKey` when
absent, otherwise return the cached document.  Note: unlike `find`, the source
never calls `assertState` here. -/
def get (m : MirrorState) (key : JVal) : Except QueryError Doc :=
  let docKey := jsonStringify key
  match mapGet m.cache docKey with
  | none => Except.error (QueryError.noSuchKey docKey)
  | some d => Except.ok d

/-- Modelled from the spec: a `has` method does not appear in src/index.js —
only README.md documents it and index.test.js calls it.  Per the spec it is a
synchronous boolean presence check against the cache that never throws,
regardless of mirror state: `has(key)` is `this.cache.has(JSON.stringify(key))`
with no state assertion. -/
def hasDoc (m : MirrorState) (key : JVal) : Bool :=
  mapHas m.cache (jsonStringify key)

/-- `buildChangeStream`'s `startAtOperationTime` (lines 31-33): computed as
`Math.floor(Date.now() / 1000) - 30` **inside** the snapshot's `.then`
callback, so the `Date.now()` reading is the wall-clock second at which the
snapshot enumeration completed, not at which it was issued. -/
def changeStreamAnchorSec (nowSecAtSnapshotComplete : Int) : Int :=
  nowSecAtSnapshotComplete - 30

/-- Result of the constructor's asynchronous tail (the `.then` callback of
`collection.find({}).toArray()`): the state it leaves behind, the notifications
it emitted, and the change stream's anchor time when one was opened. -/
structure BootstrapResult where
  state : MirrorState
  emitted : List Notification
  anchor : Option Int
deriving DecidableEq, Repr

/-- Populating the cache from the snapshot (lines 25-27): each returned
document is passed to `setCachedValue(doc, doc, this)`. -/
def applyInitialDocs : MirrorState → List Doc → MirrorState × List Notification
  | m, [] => (m, [])
  | m, d :: rest =>
      let step := setCachedValue d (some d) m
      let tail := applyInitialDocs step.1 rest
      (tail.1, step.2 ++ tail.2)

/-- The constructor's promise chain (lines 23-37).  On a successful
enumeration the `.then` callback caches every document, assigns
`this.changeStream` (anchored at `now - 30`), and emits `ready`.  The chain
has **no** `.catch`: when the enumeration rejects, the callback never runs —
nothing in the mirror changes, nothing is emitted, and the rejection is not
propagated anywhere a waiter could see it. -/
def bootstrap (enumResult : Except String (List Doc))
    (nowSecAtSnapshotComplete : Int) : BootstrapResult :=
  match enumResult with
  | Except.error _ => { state := initialState, emitted := [], anchor := none }
  | Except.ok docs =>
      let loaded := applyInitialDocs initialState docs
      let m2 := { loaded.1 with changeStream := true }
      { state := m2,
        emitted := loaded.2 ++ doEmit m2 "ready" [EmitArg.mirrorRef],
        anchor := some (changeStreamAnchorSec nowSecAtSnapshotComplete) }

/-- What `waitUntilReady()` (lines 120-126) does when called: resolve at once
when `this.changeStream` is set; otherwise register `this.on('ready', resolve)`
and suspend.  The executor never calls its `reject`, so there is no rejecting
outcome to model. -/
inductive WaitUntilReadyAction where
  | resolveNow : WaitUntilReadyAction
  | awaitReadyEvent : WaitUntilReadyAction
deriving DecidableEq, Repr

/-- Dispatch of `waitUntilReady()` against the current state. -/
def waitUntilReady (m : MirrorState) : WaitUntilReadyAction :=
  if m.changeStream then WaitUntilReadyAction.resolveNow
  else WaitUntilReadyAction.awaitReadyEvent

/-- State of the close protocol (`close()`, lines 66-81), tracked at the
granularity the promise chain imposes: whether `this.changeStream` has been
assigned (which happens at the `ready` transition), whether `close()` was
called early and registered its `this.on('ready', ...)` listener, whether
`stream.close()` has been invoked, whether that call's promise has resolved
(the subscription is actually released), and whether `this.closed` has been
set (which the final `.then` does right after the close promise resolves). -/
structure CloseState where
  changeStreamOpen : Bool
  deferredClose : Bool
  releaseRequested : Bool
  released : Bool
  closed : Bool
deriving DecidableEq, Repr

/-- The asynchronous happenings that drive the close protocol: a `close()`
call, the constructor's `.then` callback running (assigning the stream and
emitting `ready`, which fires any registered deferred-close listener), and the
resolution of `stream.close()`. -/
inductive CloseHappening where
  | closeCalled : CloseHappening
  | readyFires : CloseHappening
  | streamCloseResolves : CloseHappening
deriving DecidableEq, Repr

/-- One step of the close protocol, following lines 66-81: `close()` invokes
`closeStream` at once when the stream exists and otherwise defers it behind a
`ready` listener; the `ready` transition runs that listener; `this.closed` is
assigned only in the `.then` that runs once `stream.close()` has resolved. -/
def closeStep (s : CloseState) : CloseHappening → CloseState
  | CloseHappening.closeCalled =>
      if s.changeStreamOpen then { s with releaseRequested := true }
      else { s with deferredClose := true }
  | CloseHappening.readyFires =>
      let s1 := { s with changeStreamOpen := true }
      if s1.deferredClose then { s1 with releaseRequested := true } else s1
  | CloseHappening.streamCloseResolves =>
      if s.releaseRequested then { s with released := true, closed := true }
      else s

/-- Run a sequence of happenings from a given close-protocol state. -/
def runClose (s : CloseState) (hs : List CloseHappening) : CloseState :=
  hs.foldl closeStep s

/-- The close-protocol state at construction: no stream, nothing requested. -/
def closeInit : CloseState :=
  { changeStreamOpen := false, deferredClose := false, releaseRequested := false,
    released := false, closed := false }

/-- Reference-level model of the read paths, for the copy-on-read contract.
JS objects live in a heap; the cache's `Map` values are references (addresses)
into it.  `find` (line 91) executes `result.push(value)` on the reference held
by the cache, and `get` (line 105) returns `this.cache.get(docKey)` itself —
neither allocates a copy, so the caller receives the very address the mirror
holds. -/
structure RefHeap where
  heap : List Doc
  cacheRefs : List (String × Nat)
deriving DecidableEq, Repr

/-- Dereference an address in the heap. -/
def derefDoc (h : RefHeap) (a : Nat) : Option Doc := h.heap.get? a

/-- The cache lookup at the reference level. -/
def refCacheGet : List (String × Nat) → String → Option Nat
  | [], _ => none
  | (k, a) :: rest, key => if k = key then some a else refCacheGet rest key

/-- `find` at the reference level: the predicate is applied to the document
behind each cached reference, and the matching references themselves are
pushed into the result array. -/
def refFind (h : RefHeap) (predicate : Doc → Bool) : List Nat :=
  (h.cacheRefs.map Prod.snd).filter fun a =>
    match derefDoc h a with
    | some d => predicate d
    | none => false

/-- `get` at the reference level: returns the cached reference itself. -/
def refGet (h : RefHeap) (key : JVal) : Except QueryError Nat :=
  let docKey := jsonStringify key
  match refCacheGet h.cacheRefs docKey with
  | none => Except.error (QueryError.noSuchKey docKey)
  | some a => Except.ok a

/-- A caller mutating a document object in place through a reference it
holds. -/
def heapWrite (h : RefHeap) (a : Nat) (d : Doc) : RefHeap :=
  { h with heap := h.heap.set a d }

/-- Sample document used by concrete witnesses. -/
def docAbc : Doc := { docId := JVal.jstr "abc", fields := [("foo", JVal.jstr "bar")] }

/-- Sample document after a caller-side mutation of `docAbc`. -/
def docAbcMut : Doc := { docId := JVal.jstr "abc", fields := [("foo", JVal.jstr "X")] }

/-- Sample second document used by concrete witnesses. -/
def docDef : Doc :=
  { docId := JVal.jstr "def", fields := [("bazz", JVal.jstr "plugh")] }

theorem mapGet_mapSet_self (c : Cache) (k : String) (v : Doc) :
    mapGet (mapSet c k v) k = some v := by
  induction c with
  | nil => simp [mapSet, mapGet]
  | cons p rest ih =>
      obtain ⟨k0, w⟩ := p
      by_cases h : k0 = k
      · simp [mapSet, h, mapGet]
      · simp [mapSet, h, mapGet, ih]

theorem mapGet_mapDelete_self (c : Cache) (k : String) :
    mapGet (mapDelete c k) k = none := by
  induction c with
  | nil => simp [mapDelete, mapGet]
  | cons p rest ih =>
      obtain ⟨k0, w⟩ := p
      by_cases h : k0 = k
      · simp [mapDelete, h, ih]
      · simp [mapDelete, h, mapGet, ih]

/-- C2: applying a change event: for kind insert/update/replace with a non-null
document, the cache entry at the event's key afterwards is exactly that
document; for kind delete (whose delivered `fullDocument` is null, per the
event model) or for any of the four applied kinds carrying a null document,
the key is absent afterwards; events of any other kind (invalidate included)
leave the cache unchanged. -/
theorem changeHandler_cache_semantics (m : MirrorState) (e : ChangeEvent)
    (hwf : e.operationType = "delete" → e.fullDocument = none) :
    ((e.operationType = "insert" ∨ e.operationType = "update" ∨
        e.operationType = "replace") →
      ∀ d, e.fullDocument = some d →
        mapGet (changeHandler m e).1.cache (cacheKey e.documentKey) = some d) ∧
    ((e.operationType = "delete" ∨
        ((e.operationType = "insert" ∨ e.operationType = "update" ∨
            e.operationType = "replace" ∨ e.operationType = "delete") ∧
          e.fullDocument = none)) →
      mapGet (changeHandler m e).1.cache (cacheKey e.documentKey) = none) ∧
    (¬(e.operationType = "insert" ∨ e.operationType = "update" ∨
        e.operationType = "replace" ∨ e.operationType = "delete") →
      (changeHandler m e).1.cache = m.cache) := by
  obtain ⟨op, dk, fd, rid⟩ := e
  refine ⟨?_, ?_, ?_⟩
  · intro hop d hd
    have hcond : op = "delete" ∨ op = "insert" ∨ op = "replace" ∨
        op = "update" := by tauto
    simp only [changeHandler, if_pos hcond, setCachedValue]
    simp only at hd
    rw [hd]
    exact mapGet_mapSet_self _ _ _
  · intro hcase
    have hfd : fd = none := by
      rcases hcase with h | h
      · exact hwf h
      · exact h.2
    have hcond : op = "delete" ∨ op = "insert" ∨ op = "replace" ∨
        op = "update" := by tauto
    simp only [changeHandler, if_pos hcond, setCachedValue]
    rw [hfd]
    exact mapGet_mapDelete_self _ _
  · intro hother
    have hcond : ¬(op = "delete" ∨ op = "insert" ∨ op = "replace" ∨
        op = "update") := by tauto
    simp only [changeHandler, if_neg hcond]
    by_cases hinv : op = "invalidate"
    · simp [hinv]
    · simp [hinv]

/-- Concrete instantiation of `changeHandler_cache_semantics`: an insert event
for `docAbc` leaves `docAbc` cached under its key. -/
theorem changeHandler_cache_semantics_witness :
    mapGet
      (changeHandler initialState
        { operationType := "insert", documentKey := docAbc,
          fullDocument := some docAbc, resumeId := 1 }).1.cache
      (cacheKey docAbc) = some docAbc := by
  have h := changeHandler_cache_semantics initialState
    { operationType := "insert", documentKey := docAbc,
      fullDocument := some docAbc, resumeId := 1 }
    (by decide)
  exact h.1 (Or.inl rfl) docAbc rfl

/-- C5: `has(key)` (absent from src/index.js, modelled from the spec) is a
pure boolean presence check on the cache: it holds exactly when a document is
cached under the key's serialization, and its value ignores every lifecycle
flag, so it cannot fail for unknown keys or in any mirror state. -/
theorem hasDoc_presence_check (cache : Cache) (cs inv cl : Bool)
    (lo : Option Nat) (key : JVal) :
    (hasDoc ⟨cache, cs, inv, cl, lo⟩ key = true ↔
      ∃ d, mapGet cache (jsonStringify key) = some d) ∧
    (∀ cs2 inv2 cl2 lo2,
      hasDoc ⟨cache, cs2, inv2, cl2, lo2⟩ key =
        hasDoc ⟨cache, cs, inv, cl, lo⟩ key) := by
  constructor
  · simp [hasDoc, mapHas, Option.isSome_iff_exists]
  · intro cs2 inv2 cl2 lo2
    rfl

/-- Number of `invalidated` notifications in an emission trace. -/
def countInvalidated (ns : List Notification) : Nat :=
  (ns.filter fun n => n.name = "invalidated").length

theorem changeHandler_invalid_absorb (m : MirrorState) (e : ChangeEvent)
    (h : m.invalid = true) :
    (changeHandler m e).1.invalid = true ∧ (changeHandler m e).2 = [] := by
  obtain ⟨op, dk, fd, rid⟩ := e
  by_cases h4 : op = "delete" ∨ op = "insert" ∨ op = "replace" ∨ op = "update"
  · simp only [changeHandler, if_pos h4, setCachedValue]
    cases fd <;> simp [doEmit, isValid, h]
  · by_cases hinv : op = "invalidate"
    · simp [changeHandler, if_neg h4, hinv, doEmit, isValid, h]
    · simp [changeHandler, if_neg h4, hinv, h]

theorem processEvents_invalid_silent (m : MirrorState) (es : List ChangeEvent)
    (h : m.invalid = true) :
    (processEvents m es).2 = [] := by
  induction es generalizing m with
  | nil => rfl
  | cons e rest ih =>
      have ha := changeHandler_invalid_absorb m e h
      simp only [processEvents]
      rw [ha.2, ih _ ha.1]
      rfl

theorem changeHandler_not_invalidate (m : MirrorState) (e : ChangeEvent)
    (hne : ¬ e.operationType = "invalidate") :
    (changeHandler m e).1.invalid = m.invalid ∧
    ∀ n ∈ (changeHandler m e).2, n.name = "changed" := by
  obtain ⟨op, dk, fd, rid⟩ := e
  simp only at hne
  by_cases h4 : op = "delete" ∨ op = "insert" ∨ op = "replace" ∨ op = "update"
  · simp only [changeHandler, if_pos h4, setCachedValue]
    cases fd <;> simp [doEmit, isValid]
  · simp [changeHandler, if_neg h4, hne]

theorem changeHandler_invalidate_eq (m : MirrorState) (e : ChangeEvent)
    (hv : m.invalid = false) (hop : e.operationType = "invalidate") :
    changeHandler m e =
      ({ m with lastOpId := some e.resumeId, invalid := true },
        [{ name := "invalidated",
           args := [EmitArg.mirrorRef, EmitArg.eventArg e] }]) := by
  obtain ⟨op, dk, fd, rid⟩ := e
  simp only at hop
  subst hop
  have h4 : ¬("invalidate" = "delete" ∨ "invalidate" = "insert" ∨
      "invalidate" = "replace" ∨ "invalidate" = "update") := by decide
  simp [changeHandler, if_neg h4, doEmit, isValid, hv]

theorem countInvalidated_append (a b : List Notification) :
    countInvalidated (a ++ b) = countInvalidated a + countInvalidated b := by
  simp [countInvalidated, List.filter_append]

theorem processEvents_invalidated_once (m : MirrorState)
    (es : List ChangeEvent) :
    countInvalidated (processEvents m es).2 ≤ 1 := by
  induction es generalizing m with
  | nil => simp [processEvents, countInvalidated]
  | cons e rest ih =>
      by_cases hinv : m.invalid = true
      · rw [processEvents_invalid_silent m (e :: rest) hinv]
        simp [countInvalidated]
      · have hv : m.invalid = false := by
          cases h : m.invalid
          · rfl
          · exact absurd h hinv
        simp only [processEvents]
        rw [countInvalidated_append]
        by_cases hop : e.operationType = "invalidate"
        · rw [changeHandler_invalidate_eq m e hv hop]
          have hrest : (processEvents
              { m with lastOpId := some e.resumeId, invalid := true }
              rest).2 = [] :=
            processEvents_invalid_silent _ rest rfl
          rw [hrest]
          simp [countInvalidated]
        · have hch := changeHandler_not_invalidate m e hop
          have hzero : countInvalidated (changeHandler m e).2 = 0 := by
            simp only [countInvalidated, List.length_eq_zero,
              List.filter_eq_nil_iff]
            intro n hn
            have := hch.2 n hn
            simp [this]
          rw [hzero]
          simpa using ih (changeHandler m e).1

theorem applyInitialDocs_only_changed (m : MirrorState) (docs : List Doc) :
    ∀ n ∈ (applyInitialDocs m docs).2, n.name = "changed" := by
  induction docs generalizing m with
  | nil => simp [applyInitialDocs]
  | cons d rest ih =>
      intro n hn
      simp only [applyInitialDocs, List.mem_append] at hn
      rcases hn with hn | hn
      · simp only [setCachedValue, doEmit] at hn
        split at hn
        · simp only [List.mem_singleton] at hn
          rw [hn]
        · simp at hn
      · exact ih _ n hn

/-- An invalidate event as delivered by a dropped collection, used by
concrete witnesses. -/
def evInvalidate : ChangeEvent :=
  { operationType := "invalidate", documentKey := docAbc, fullDocument := none,
    resumeId := 7 }

/-- A ready, valid, open mirror holding `docAbc`, used by concrete
witnesses. -/
def mReadyValid : MirrorState :=
  { cache := [(cacheKey docAbc, docAbc)], changeStream := true,
    invalid := false, closed := false, lastOpId := none }

/-- `mReadyValid` after its collection has been invalidated. -/
def mInvalidEx : MirrorState := { mReadyValid with invalid := true }

/-- C6: processing an invalidate event on a still-valid mirror emits the
`invalidated` notification computed from the pre-flag state — where
`isValid()` still returns true, and where the same emission would have been
suppressed had the flag been set first — and only then sets the `Invalid`
flag; no event ever clears the flag; once `Invalid` holds, `doEmit`
suppresses every notification (ready, changed and invalidated alike) and
whole event traces emit nothing; any event trace emits at most one
`invalidated` notification, and the bootstrap emits none. -/
theorem invalidate_emits_before_flag :
    (∀ (m : MirrorState) (e : ChangeEvent), m.invalid = false →
      e.operationType = "invalidate" →
      isValid m = true ∧
      changeHandler m e =
        ({ m with lastOpId := some e.resumeId, invalid := true },
          [{ name := "invalidated",
             args := [EmitArg.mirrorRef, EmitArg.eventArg e] }]) ∧
      doEmit { m with invalid := true } "invalidated"
          [EmitArg.mirrorRef, EmitArg.eventArg e] = []) ∧
    (∀ (m : MirrorState) (e : ChangeEvent), m.invalid = true →
      (changeHandler m e).1.invalid = true) ∧
    (∀ m : MirrorState, m.invalid = true →
      (∀ name args, doEmit m name args = []) ∧
      (∀ es, (processEvents m es).2 = [])) ∧
    (∀ (m : MirrorState) (es : List ChangeEvent),
      countInvalidated (processEvents m es).2 ≤ 1) ∧
    (∀ r t, countInvalidated (bootstrap r t).emitted = 0) := by
  refine ⟨?_, ?_, ?_, processEvents_invalidated_once, ?_⟩
  · intro m e hv hop
    exact ⟨by simp [isValid, hv], changeHandler_invalidate_eq m e hv hop,
      by simp [doEmit, isValid]⟩
  · intro m e h
    exact (changeHandler_invalid_absorb m e h).1
  · intro m h
    exact ⟨fun name args => by simp [doEmit, isValid, h],
      fun es => processEvents_invalid_silent m es h⟩
  · intro r t
    cases r with
    | error s => simp [bootstrap, countInvalidated]
    | ok docs =>
        simp only [bootstrap]
        rw [countInvalidated_append]
        have h1 : countInvalidated (applyInitialDocs initialState docs).2 = 0 := by
          simp only [countInvalidated, List.length_eq_zero,
            List.filter_eq_nil_iff]
          intro n hn
          have hc := applyInitialDocs_only_changed initialState docs n hn
          simp [hc]
        have h2 : countInvalidated
            (doEmit { (applyInitialDocs initialState docs).1 with
                changeStream := true } "ready" [EmitArg.mirrorRef]) = 0 := by
          simp only [doEmit]
          split <;> simp [countInvalidated]
        rw [h1, h2]

/-- Concrete instantiation of `invalidate_emits_before_flag`: invalidating the
sample ready mirror yields exactly one `invalidated` notification and the
sticky flag; an already-invalid mirror emits nothing; a double invalidation
emits at most once. -/
theorem invalidate_emits_before_flag_witness :
    changeHandler mReadyValid evInvalidate =
      ({ mReadyValid with lastOpId := some 7, invalid := true },
        [{ name := "invalidated",
           args := [EmitArg.mirrorRef, EmitArg.eventArg evInvalidate] }]) ∧
    (processEvents mInvalidEx [evInvalidate]).2 = [] ∧
    countInvalidated
      (processEvents mReadyValid [evInvalidate, evInvalidate]).2 ≤ 1 := by
  have h := invalidate_emits_before_flag
  exact ⟨(h.1 mReadyValid evInvalidate rfl rfl).2.1,
    (h.2.2.1 mInvalidEx rfl).2 [evInvalidate],
    h.2.2.2.1 mReadyValid [evInvalidate, evInvalidate]⟩

/-- Causal invariant of the close protocol: `stream.close()` is invoked only
once the stream exists (i.e. after the `Ready` transition), the subscription
is released only by a requested `stream.close()`, and `this.closed` is set
only after that release has resolved. -/
def closeInvariant (s : CloseState) : Prop :=
  (s.releaseRequested = true → s.changeStreamOpen = true) ∧
  (s.released = true → s.releaseRequested = true) ∧
  (s.closed = true → s.released = true)

theorem closeInvariant_init : closeInvariant closeInit := by
  unfold closeInvariant
  decide

theorem closeStep_preserves_invariant (s : CloseState) (x : CloseHappening)
    (h : closeInvariant s) : closeInvariant (closeStep s x) := by
  obtain ⟨a, b, c, d, e⟩ := s
  unfold closeInvariant at h ⊢
  revert h
  cases x <;> cases a <;> cases b <;> cases c <;> cases d <;> cases e <;> decide

theorem runClose_from_invariant (hs : List CloseHappening) :
    ∀ s : CloseState, closeInvariant s → closeInvariant (runClose s hs) := by
  induction hs with
  | nil => intro s h; exact h
  | cons x rest ih =>
      intro s h
      have hstep := closeStep_preserves_invariant s x h
      simpa [runClose, List.foldl] using ih (closeStep s x) hstep

theorem runClose_no_ready_stream_stays_off (hs : List CloseHappening)
    (hnr : ∀ x ∈ hs, ¬ x = CloseHappening.readyFires) :
    ∀ s : CloseState, s.changeStreamOpen = false →
      (runClose s hs).changeStreamOpen = false := by
  induction hs with
  | nil => intro s h; exact h
  | cons x rest ih =>
      intro s h
      have hx : ¬ x = CloseHappening.readyFires := hnr x (by simp)
      have hrest : ∀ y ∈ rest, ¬ y = CloseHappening.readyFires := by
        intro y hy
        exact hnr y (by simp [hy])
      have hstep : (closeStep s x).changeStreamOpen = false := by
        cases x with
        | closeCalled => simp [closeStep]; split <;> simp [h]
        | readyFires => exact absurd rfl hx
        | streamCloseResolves => simp [closeStep]; split <;> simp [h]
      simpa [runClose, List.foldl] using ih hrest (closeStep s x) hstep

/-- C8: over every asynchronous schedule of `close()` calls, the `ready`
transition and `stream.close()` resolutions: a `close()` issued before the
stream exists only registers a deferred listener (no release is requested),
the `ready` transition immediately executes a pending deferred close, the
causal invariant holds along every trace — a release is requested only after
`Ready`, the subscription is released only once requested, and `this.closed`
(hence a resolved `close()` promise and a true `isClosed()`) only once the
release has actually resolved — and on a trace where construction never
completes, the subscription is never released and `close()` never resolves. -/
theorem close_defers_until_ready :
    (∀ s : CloseState, s.changeStreamOpen = false →
      (closeStep s CloseHappening.closeCalled).deferredClose = true ∧
      (closeStep s CloseHappening.closeCalled).releaseRequested =
        s.releaseRequested) ∧
    (∀ s : CloseState, s.deferredClose = true →
      (closeStep s CloseHappening.readyFires).releaseRequested = true) ∧
    (∀ hs : List CloseHappening, closeInvariant (runClose closeInit hs)) ∧
    (∀ hs : List CloseHappening,
      (∀ x ∈ hs, ¬ x = CloseHappening.readyFires) →
      (runClose closeInit hs).released = false ∧
      (runClose closeInit hs).closed = false) := by
  refine ⟨?_, ?_, ?_, ?_⟩
  · intro s h
    constructor
    · simp [closeStep, h]
    · simp [closeStep, h]
  · intro s h
    simp [closeStep, h]
  · intro hs
    exact runClose_from_invariant hs closeInit closeInvariant_init
  · intro hs hnr
    have hopen : (runClose closeInit hs).changeStreamOpen = false :=
      runClose_no_ready_stream_stays_off hs hnr closeInit rfl
    have hinv := runClose_from_invariant hs closeInit closeInvariant_init
    have hreq : (runClose closeInit hs).releaseRequested = false := by
      cases hr : (runClose closeInit hs).releaseRequested
      · rfl
      · rw [hinv.1 hr] at hopen
        cases hopen
    have hrel : (runClose closeInit hs).released = false := by
      cases hr : (runClose closeInit hs).released
      · rfl
      · rw [hinv.2.1 hr] at hreq
        cases hreq
    refine ⟨hrel, ?_⟩
    cases hc : (runClose closeInit hs).closed
    · rfl
    · rw [hinv.2.2 hc] at hrel
      cases hrel

/-- Concrete instantiation of `close_defers_until_ready`: a close requested at
construction defers, executes at `ready`, and completes at the stream-close
resolution; without a `ready` the close never completes. -/
theorem close_defers_until_ready_witness :
    (closeStep closeInit CloseHappening.closeCalled).deferredClose = true ∧
    (closeStep (closeStep closeInit CloseHappening.closeCalled)
        CloseHappening.readyFires).releaseRequested = true ∧
    closeInvariant (runClose closeInit [CloseHappening.closeCalled,
        CloseHappening.readyFires, CloseHappening.streamCloseResolves]) ∧
    (runClose closeInit [CloseHappening.closeCalled,
        CloseHappening.streamCloseResolves]).closed = false := by
  have h := close_defers_until_ready
  refine ⟨(h.1 closeInit rfl).1, ?_, h.2.2.1 _, ?_⟩
  · exact h.2.1 _ (h.1 closeInit rfl).1
  · exact (h.2.2.2 _ (by decide)).2

/-- C10: `find` called while the mirror is still initializing (no change
stream yet, not invalid, not closed) does not fail: it returns the filtered
contents of whatever has been cached so far, and in particular the empty array
on the pristine initial state. -/
theorem find_while_initializing (cache : Cache) (lo : Option Nat)
    (predicate : Doc → Bool) :
    find ⟨cache, false, false, false, lo⟩ predicate =
      Except.ok ((cache.map Prod.snd).filter predicate) ∧
    find initialState predicate = Except.ok [] := by
  exact ⟨rfl, rfl⟩

/-- C1 (code-bug evidence): when the snapshot enumeration rejects, the
constructor's promise chain — which has no `.catch` — never runs its callback:
the state is untouched, nothing (in particular no `ready`) is emitted and no
stream is opened; `waitUntilReady()` on that state merely registers a `ready`
listener (its executor has no rejection path at all), and no change-stream
processing ever emits `ready`, so the listener can never fire: the waiter
suspends forever instead of observing the propagated failure. -/
theorem failed_bootstrap_hangs_waiters :
    bootstrap (Except.error "connection error") 1000 =
      { state := initialState, emitted := [], anchor := none } ∧
    waitUntilReady initialState = WaitUntilReadyAction.awaitReadyEvent ∧
    (∀ (m : MirrorState) (e : ChangeEvent),
      (changeHandler m e).2.filter (fun n => n.name = "ready") = []) := by
  refine ⟨rfl, rfl, ?_⟩
  intro m e
  rw [List.filter_eq_nil_iff]
  intro n hn
  by_cases hop : e.operationType = "invalidate"
  · by_cases hv : m.invalid = true
    · rw [(changeHandler_invalid_absorb m e hv).2] at hn
      simp at hn
    · have hv2 : m.invalid = false := by
        cases hb : m.invalid
        · rfl
        · exact absurd hb hv
      rw [changeHandler_invalidate_eq m e hv2 hop] at hn
      simp only [List.mem_singleton] at hn
      rw [hn]
      simp
  · have hname := (changeHandler_not_invalidate m e hop).2 n hn
    simp [hname]

/-- Reference-level state holding `docAbc` at heap address 0, cached under its
key. -/
def refHeapEx : RefHeap :=
  { heap := [docAbc], cacheRefs := [(cacheKey docAbc, 0)] }

/-- C3 (code-bug evidence): `find` and `get` hand back the very reference the
cache holds — the address returned is the cached address, not a fresh copy —
so a caller-side in-place mutation through the returned reference changes the
document that `get` subsequently reports. -/
theorem find_returns_cached_reference :
    refFind refHeapEx (fun _ => true) = [0] ∧
    refCacheGet refHeapEx.cacheRefs (cacheKey docAbc) = some 0 ∧
    refGet refHeapEx (JVal.jstr "abc") = Except.ok 0 ∧
    derefDoc refHeapEx 0 = some docAbc ∧
    derefDoc (heapWrite refHeapEx 0 docAbcMut) 0 = some docAbcMut ∧
    refGet (heapWrite refHeapEx 0 docAbcMut) (JVal.jstr "abc") = Except.ok 0 ∧
    docAbcMut ≠ docAbc := by
  refine ⟨rfl, rfl, rfl, rfl, rfl, rfl, by decide⟩

/-- A ready mirror holding `docAbc` that is both invalidated and closed. -/
def mInvalidClosed : MirrorState :=
  { cache := [(cacheKey docAbc, docAbc)], changeStream := true,
    invalid := true, closed := true, lastOpId := none }

/-- A ready mirror holding `docAbc` that is closed but still valid. -/
def mClosedOnly : MirrorState :=
  { cache := [(cacheKey docAbc, docAbc)], changeStream := true,
    invalid := false, closed := true, lastOpId := none }

/-- C4 (code-bug evidence): `find` goes through `assertState`, which raises
the invalid-collection error before the closed error; but `get` never calls
`assertState` — on a mirror that is invalid, closed, or both, `get` happily
returns the cached document instead of failing. -/
theorem get_skips_state_assertions :
    get mInvalidClosed (JVal.jstr "abc") = Except.ok docAbc ∧
    get mClosedOnly (JVal.jstr "abc") = Except.ok docAbc ∧
    get mInvalidEx (JVal.jstr "abc") = Except.ok docAbc ∧
    find mInvalidClosed (fun _ => true) =
      Except.error QueryError.collectionNoLongerValid ∧
    find mClosedOnly (fun _ => true) = Except.error QueryError.mirrorClosed ∧
    assertState mInvalidClosed =
      Except.error QueryError.collectionNoLongerValid := by
  exact ⟨rfl, rfl, rfl, rfl, rfl, rfl⟩

/-- C7 counterexample: take a mirror constructed (and its enumerate-all
request issued) at wall-clock second 0 whose enumeration completes at second
100.  The change stream is then anchored at second 70 — `Date.now()` is read
inside the `.then` callback, after the enumeration — which is not a time
recorded before the request was issued, so the claimed
"regardless of how long the enumeration takes" fails. -/
theorem anchor_after_construction_counterexample :
    ((0 : Int) ≤ 100) ∧
    changeStreamAnchorSec 100 = 70 ∧
    ¬ changeStreamAnchorSec 100 ≤ 0 ∧
    (bootstrap (Except.ok []) 100).anchor = some 70 := by
  refine ⟨by decide, rfl, by decide, rfl⟩

/-- C7 amended: the feed anchor is the snapshot-completion wall-clock time
minus a 30-second safety margin; it precedes the construction instant (when
the enumerate-all request was issued) provided the enumeration itself took at
most 30 seconds. -/
theorem anchor_within_margin (constructionSec completionSec : Int)
    (hle : constructionSec ≤ completionSec)
    (hfast : completionSec ≤ constructionSec + 30) :
    changeStreamAnchorSec completionSec ≤ constructionSec ∧
    (∀ docs, (bootstrap (Except.ok docs) completionSec).anchor =
      some (completionSec - 30)) := by
  constructor
  · unfold changeStreamAnchorSec
    omega
  · intro docs
    rfl

/-- Concrete instantiation of `anchor_within_margin`: an enumeration issued at
second 0 and completing at second 20 anchors the feed at second -10, before
construction. -/
theorem anchor_within_margin_witness :
    changeStreamAnchorSec 20 ≤ 0 ∧
    (bootstrap (Except.ok [docAbc]) 20).anchor = some (20 - 30) :=
  ⟨(anchor_within_margin 0 20 (by decide) (by decide)).1,
    (anchor_within_margin 0 20 (by decide) (by decide)).2 [docAbc]⟩

/-- An insert event delivering `docAbc`, used by concrete witnesses. -/
def evInsertAbc : ChangeEvent :=
  { operationType := "insert", documentKey := docAbc,
    fullDocument := some docAbc, resumeId := 3 }

/-- C9 (code-bug evidence): `ready` carries the mirror instance and
`invalidated` carries the mirror instance plus the raw change event, as
claimed; but every `changed` notification's first listener argument is
`undefined` — `setCachedValue` passes its own `this`, which in a strict-mode
plain function call is `undefined` — rather than the mirror instance. -/
theorem changed_first_arg_undefined :
    (changeHandler mReadyValid evInsertAbc).2 =
      [{ name := "changed",
         args := [EmitArg.undef, EmitArg.keyArg (cacheKey docAbc)] }] ∧
    EmitArg.undef ≠ EmitArg.mirrorRef ∧
    (bootstrap (Except.ok [docAbc]) 100).emitted =
      [{ name := "changed",
         args := [EmitArg.undef, EmitArg.keyArg (cacheKey docAbc)] },
       { name := "ready", args := [EmitArg.mirrorRef] }] ∧
    (changeHandler mReadyValid evInvalidate).2 =
      [{ name := "invalidated",
         args := [EmitArg.mirrorRef, EmitArg.eventArg evInvalidate] }] := by
  refine ⟨rfl, by decide, rfl, rfl⟩

end LocalMongoDbCollectionMirror
